import Mathlib

/-!
Verification of the `ndm` Nostr direct-message CLI (Go) against its
natural-language specification.

Go strings are embedded as `List Char`; Go `int` values that may be
negative (the `-n` count flag) are embedded as `Int`; fallible Go
functions returning `(T, error)` are embedded as `Except (List Char) T`.

The repository's own code (`resolveKey`, `resolvePrivateKey`,
`derivePublicKeyFromPrivate`, `decryptMessage`, the publish fan-out loop
of `sendMessage` and the fan-in/render loops of `readMessages`) is
translated from `src/main.go`.  The external library primitives that the
spec declares out of scope (nip19 bech32 codec, nip44 conversation-key
derivation and authenticated encryption, event signing) are modelled from
the interface laws of the spec, as noted on each definition.
-/

set_option linter.unusedVariables false

/-- Go `unicode.IsSpace` restricted to the ASCII spaces relevant here,
used by `strings.TrimSpace`. -/
def isSpace (c : Char) : Bool :=
  c.toNat = 32 || c.toNat = 9 || c.toNat = 10 || c.toNat = 13

/-- The per-character test of `isHex` in src/main.go: digit, lowercase
a-f, or uppercase A-F. -/
def isHexChar (c : Char) : Bool :=
  (48 ≤ c.toNat && c.toNat ≤ 57) ||
  (97 ≤ c.toNat && c.toNat ≤ 102) ||
  (65 ≤ c.toNat && c.toNat ≤ 70)

/-- `isHex` from src/main.go: every rune is a hex digit (true on the
empty string, as the repository's own tests record). -/
def isHex (s : List Char) : Bool := s.all isHexChar

/-- Go `strings.TrimSpace`: drop leading and trailing whitespace. -/
def trimSpace (s : List Char) : List Char :=
  ((s.dropWhile isSpace).reverse.dropWhile isSpace).reverse

/-- Go `strings.HasPrefix p s` (arguments: the candidate head `p` and
the string `s`). -/
def hasPre (p s : List Char) : Bool := decide (s.take p.length = p)

/-- Numeric value of one hex digit character (0 for non-hex input,
which never occurs on the paths that use it). -/
def hexVal (c : Char) : Nat :=
  if 48 ≤ c.toNat ∧ c.toNat ≤ 57 then c.toNat - 48
  else if 97 ≤ c.toNat ∧ c.toNat ≤ 102 then c.toNat - 87
  else if 65 ≤ c.toNat ∧ c.toNat ≤ 70 then c.toNat - 55
  else 0

/-- Big-endian interpretation of a hex string as a natural number,
modelling `hex.DecodeString` composed with big-endian byte reading. -/
def hexToNat (s : List Char) : Nat := s.foldl (fun a c => a * 16 + hexVal c) 0

/-- The sixteen lowercase hex digit characters. -/
def hexAlphabet : List Char := "0123456789abcdef".data

/-- Lowercase hex digit character of a value below 16. -/
def hexDigit (n : Nat) : Char := hexAlphabet.getD n '0'

/-- Fixed-width big-endian lowercase hex rendering of a natural number,
modelling `hex.EncodeToString` of a fixed-width big-endian value. -/
def toHexBE : Nat → Nat → List Char
  | 0, _ => []
  | len + 1, x => toHexBE len (x / 16) ++ [hexDigit (x % 16)]

/-- Modelled from the spec: the field prime of the secp256k1-style curve
underlying the out-of-scope signing and ECDH primitives (§1, §6). -/
def pMod : Nat :=
  0xFFFFFFFFFFFFFFFFFFFFFFFFFFFFFFFFFFFFFFFFFFFFFFFFFFFFFFFEFFFFFC2F

/-- Modelled from the spec: the group order used to reduce secret
scalars by the out-of-scope signing primitive. -/
def nOrder : Nat :=
  0xFFFFFFFFFFFFFFFFFFFFFFFFFFFFFFFEBAAEDCE6AF48A03BBFD25E8CD0364141

/-- Modelled from the spec: generator of the cyclic group; the group is
modelled multiplicatively inside `ZMod`-free modular arithmetic. -/
def gGen : Nat := 7

/-- Modelled from the spec (§3): one-way derivation of the public-key
value from a secret scalar, as modular exponentiation. -/
def pubNat (k : Nat) : Nat := gGen ^ (k % nOrder) % pMod

/-- Modelled from the spec: a secret key the signing primitive accepts —
a 64-character hex string whose scalar is nonzero modulo the group
order (`SigningError` otherwise, §4.3). -/
def validSec (s : List Char) : Bool :=
  decide (s.length = 64) && isHex s && decide (hexToNat s % nOrder ≠ 0)

/-- Hex rendering of the public key derived from a secret-key hex
string; model of the (pure) private-to-public derivation. -/
def pubOfPriv (s : List Char) : List Char := toHexBE 64 (pubNat (hexToNat s))

/-- Modelled from the spec (§6 `GenerateConversationKey`): the ECDH
shared secret of a public-key value and a secret scalar; commutative at
the key-pair level as §3 requires. -/
def sharedSecret (pubN skN : Nat) : Nat := pubN ^ (skN % nOrder) % pMod

/-- Modelled from the spec: a nip44 payload string. `raw` is an
arbitrary string as found in a relay-supplied event (including
malformed or tampered data, on which decryption fails authentication);
`enc` is a well-formed ciphertext produced by the cipher under a
conversation key. -/
inductive Ciphertext
  | raw (s : List Char)
  | enc (k : Nat) (m : List Char)
deriving DecidableEq

/-- The character string a `Ciphertext` stands for; an `enc` payload is
never the empty string (version byte, nonce and MAC are always
present), modelled by a 64-character key tag before the body. -/
def ciphChars : Ciphertext → List Char
  | .raw s => s
  | .enc k m => toHexBE 64 k ++ m

/-- Modelled from the spec (§6): `GenerateConversationKey(public-key,
private-key) -> symmetric-secret`; fails on a malformed public key or an
unusable secret key. -/
def generateConversationKey (pub sk : List Char) : Except (List Char) Nat :=
  if pub.length = 64 ∧ isHex pub = true ∧ validSec sk = true then
    .ok (sharedSecret (hexToNat pub) (hexToNat sk))
  else .error ("generate conversation key error".data)

/-- Modelled from the spec (§6): `Encrypt(plaintext, secret) ->
ciphertext`; total on all plaintexts including the empty string. -/
def nip44Encrypt (m : List Char) (k : Nat) : Ciphertext := .enc k m

/-- Modelled from the spec (§6): `Decrypt(ciphertext, secret) ->
plaintext, fails on authentication mismatch` — wrong key or data that is
not a well-formed ciphertext. -/
def nip44Decrypt (c : Ciphertext) (k : Nat) : Except (List Char) (List Char) :=
  match c with
  | .enc k2 m => if k2 = k then .ok m else .error ("invalid mac".data)
  | .raw s => .error ("invalid payload".data)

/-- A Nostr event as in go-nostr's `nostr.Event`: id, author public key,
creation time, kind, tags, content (a nip44 payload on the DM paths, the
plaintext dummy body inside key derivation), signature. -/
structure REvent where
  id : List Char
  pubkey : List Char
  createdAt : Int
  kind : Nat
  tags : List (List (List Char))
  content : Ciphertext
  sig : Nat
deriving DecidableEq

/-- Fold a character string into an accumulator, a stand-in for feeding
bytes to the event-serialization hash. -/
def mixChars (a : Nat) (s : List Char) : Nat :=
  s.foldl (fun x c => x * 131 + c.toNat) a

/-- Modelled from the spec (§4.3, §6): the content hash giving the event
identifier — a deterministic function of the signed fields, and in
particular of the creation timestamp. -/
def eventIdNat (pk : List Char) (t : Int) (kind : Nat)
    (tags : List (List (List Char))) (c : Ciphertext) : Nat :=
  (mixChars (mixChars (kind * 2 ^ 64 + t.natAbs) pk) (ciphChars c)
    + tags.length) % 2 ^ 256

/-- Modelled from the spec (§6): `Sign(event-fields, private-key) ->
(identifier, signature)`, deterministic given identical fields and time;
go-nostr's `Event.Sign` sets the event's `PubKey` (a function of the
private key alone), `ID` (the serialization hash) and `Sig`, and fails
exactly on an unusable private key. -/
def signEvent (e : REvent) (sk : List Char) : Except (List Char) REvent :=
  if validSec sk = true then
    .ok { e with
          pubkey := pubOfPriv sk
          id := toHexBE 64 (eventIdNat (pubOfPriv sk) e.createdAt e.kind e.tags e.content)
          sig := (eventIdNat (pubOfPriv sk) e.createdAt e.kind e.tags e.content
                   + hexToNat sk) % nOrder }
  else .error ("sign error".data)

/-- `derivePublicKeyFromPrivate` from src/main.go: build a dummy kind-1
event whose creation time is the wall clock `now`, sign it, and read the
signer identity back off the signed event. -/
def derivePublicKeyFromPrivate (sk : List Char) (now : Int) :
    Except (List Char) (List Char) :=
  match signEvent
      { id := [], pubkey := [], createdAt := now, kind := 1, tags := [],
        content := .raw ("temp".data), sig := 0 } sk with
  | .ok e => .ok e.pubkey
  | .error err => .error err

/-- Modelled from the spec (§6): `Decode(text) -> (kind-tag,
embedded-value)` for the bech32 key encodings; the tag names the key
role and the embedded value is the 64-character hex payload.  The
checksum/charset details of real bech32 are out of scope; a decodable
string is modelled as the role tag, the digit 1, and the payload. -/
def bech32Decode (s : List Char) : Option (List Char × List Char) :=
  if hasPre ("nsec1".data) s ∧ (s.drop 5).length = 64 ∧ isHex (s.drop 5) = true then
    some ("nsec".data, s.drop 5)
  else if hasPre ("npub1".data) s ∧ (s.drop 5).length = 64 ∧ isHex (s.drop 5) = true then
    some ("npub".data, s.drop 5)
  else none

/-- Modelled from the spec (§6): `Encode(public-key) -> bech32 text` for
display (`nip19.EncodePublicKey`). -/
def encodePublicKey (pk : List Char) : List Char := "npub1".data ++ pk

/-- The secret embedded in a decodable private-key bech32 string, if the
decoded kind tag is the private-key tag (the `prefix == "nsec"` check in
src/main.go). -/
def nsecPart (s : List Char) : Option (List Char) :=
  match bech32Decode s with
  | some (tag, v) => if tag = "nsec".data then some v else none
  | none => none

/-- The public key embedded in a decodable public-key bech32 string, if
the decoded kind tag is the public-key tag. -/
def npubPart (s : List Char) : Option (List Char) :=
  match bech32Decode s with
  | some (tag, v) => if tag = "npub".data then some v else none
  | none => none

/-- `resolveKey` from src/main.go (recipient/public resolution).  The
two wall-clock instants `t1 t2` at which its two calls to
`derivePublicKeyFromPrivate` read the clock are explicit parameters
(`t2` also serves the bech32-secret branch), so time-independence is
provable rather than assumed. -/
def resolveKey (t1 t2 : Int) (input : List Char) : Except (List Char) (List Char) :=
  let inp := trimSpace input
  if inp.length = 64 ∧ isHex inp = true then
    match derivePublicKeyFromPrivate inp t1 with
    | .ok _ => derivePublicKeyFromPrivate inp t2
    | .error _ => .ok inp
  else match (if hasPre ("nsec".data) inp then nsecPart inp else none) with
  | some secret => derivePublicKeyFromPrivate secret t2
  | none =>
    match (if hasPre ("npub".data) inp then npubPart inp else none) with
    | some pk => .ok pk
    | none => .error ("could not resolve key: ".data ++ inp)

/-- `resolvePrivateKey` from src/main.go: trim, accept any 64-character
hex string unchanged, otherwise decode a bech32 secret, otherwise fail.
(The Go branch for a decoded non-string secret value is unreachable in
the model, where a decoded payload is always a string.) -/
def resolvePrivateKey (input : List Char) : Except (List Char) (List Char) :=
  let inp := trimSpace input
  if inp.length = 64 ∧ isHex inp = true then .ok inp
  else match (if hasPre ("nsec".data) inp then nsecPart inp else none) with
  | some secret => .ok secret
  | none => .error ("invalid private key format".data)

/-- `decryptMessage` from src/main.go: reject empty content before the
cipher runs, derive the conversation key from (author public key, my
private key), then decrypt. -/
def decryptMessage (sk pub : List Char) (content : Ciphertext) :
    Except (List Char) (List Char) :=
  if ciphChars content = [] then .error ("empty content".data)
  else match generateConversationKey pub sk with
  | .error e => .error ("generate key: ".data ++ e)
  | .ok k => nip44Decrypt content k

/-- The encryption step of `sendMessage` in src/main.go: derive the
conversation key from (recipient public key, my private key) and
encrypt the message body with it. -/
def sendEncrypt (message sk recipientPub : List Char) :
    Except (List Char) Ciphertext :=
  match generateConversationKey recipientPub sk with
  | .error e => .error e
  | .ok k => .ok (nip44Encrypt message k)

/-- What one relay did with the publish attempt of `sendMessage`:
connection failed (no publish attempted), publish returned an error, or
the relay accepted the event. -/
inductive RelayAttempt
  | connectFail (msg : List Char)
  | publishFail (msg : List Char)
  | accepted
deriving DecidableEq

/-- The `published` counter of the fan-out loop in src/main.go: one
increment per relay whose publish call returned no error; failed
connects and failed publishes leave it unchanged and the loop moves on
to the next relay. -/
def countPublished : List RelayAttempt → Nat
  | [] => 0
  | .accepted :: rest => countPublished rest + 1
  | .connectFail _ :: rest => countPublished rest
  | .publishFail _ :: rest => countPublished rest

/-- The caller-visible success payload of `sendMessage` (the JSON/text
output fields): message id, recipient display key, and the number of
relays that accepted the event. -/
structure SendOut where
  messageId : List Char
  encryptedTo : List Char
  relays : Nat
deriving DecidableEq

/-- The outcome of the publish fan-out in src/main.go: an error when
zero relays accepted the event, otherwise the aggregate success
payload. -/
def sendOutcome (eid npubR : List Char) (attempts : List RelayAttempt) :
    Except (List Char) SendOut :=
  if countPublished attempts = 0 then
    .error ("failed to publish to any relay".data)
  else .ok ⟨eid, npubR, countPublished attempts⟩

/-- What one relay contributed to the fan-in of `readMessages`:
connection failure (skipped), query failure (skipped), or a stream of
events in the relay's delivery order. -/
inductive RelayRead
  | connectFail
  | queryFail
  | stream (evts : List REvent)

/-- The inner `for evt := range eventsCh` loop of `readMessages`: append
each streamed event, stopping as soon as the accumulated length reaches
the requested count (checked after each append). -/
def collectStream (count : Int) (acc : List REvent) : List REvent → List REvent
  | [] => acc
  | e :: rest =>
    if ((acc ++ [e]).length : Int) ≥ count then acc ++ [e]
    else collectStream count (acc ++ [e]) rest

/-- The outer relay loop of `readMessages`: skip relays that fail to
connect or to start the query, drain each remaining relay's stream
through `collectStream`, and stop querying further relays once the
accumulated length reaches the requested count (checked after each
relay). -/
def collectEvents (count : Int) : List RelayRead → List REvent → List REvent
  | [], acc => acc
  | .connectFail :: rs, acc => collectEvents count rs acc
  | .queryFail :: rs, acc => collectEvents count rs acc
  | .stream evts :: rs, acc =>
    let acc2 := collectStream count acc evts
    if (acc2.length : Int) ≥ count then acc2
    else collectEvents count rs acc2

/-- The event streams of the relays that delivered one, in relay
order. -/
def streamsOf (rs : List RelayRead) : List (List REvent) :=
  rs.filterMap fun r => match r with
    | .stream evts => some evts
    | _ => none

/-- One rendered entry of the text output of `readMessages`: either the
decrypt-failed form (truncated author key, truncated id, the error, and
the first 50 characters of the raw ciphertext followed by an ellipsis)
or the decrypted form (truncated bech32 author key, truncated id,
timestamp, plaintext). -/
inductive Rendered
  | failed (fromShort idShort errMsg rawPreview : List Char)
  | shown (fromShort idShort : List Char) (time : Int) (content : List Char)
deriving DecidableEq

/-- The text-mode per-event rendering of `readMessages` in
src/main.go. -/
def renderText (sk : List Char) (e : REvent) : Rendered :=
  match decryptMessage sk e.pubkey e.content with
  | .error err =>
    .failed (e.pubkey.take 16 ++ "...".data) (e.id.take 16 ++ "...".data) err
      ((ciphChars e.content).take (min 50 (ciphChars e.content).length)
        ++ "...".data)
  | .ok m =>
    .shown ((encodePublicKey e.pubkey).take 20 ++ "...".data)
      (e.id.take 16 ++ "...".data) e.createdAt m

/-- The text-mode rendering loop over the collected batch. -/
def renderTextAll (sk : List Char) : List REvent → List Rendered
  | [] => []
  | e :: rest => renderText sk e :: renderTextAll sk rest

/-- One entry of the JSON output of `readMessages`: the `msg` struct of
src/main.go.  The decrypt error is discarded (`decrypted, _ := ...`), so
`content` is the empty string whenever decryption failed. -/
structure JsonMsg where
  id : List Char
  sender : List Char
  content : List Char
  createdAt : Int
deriving DecidableEq

/-- The JSON-mode per-event rendering of `readMessages`. -/
def renderJson (sk : List Char) (e : REvent) : JsonMsg :=
  { id := e.id
    sender := e.pubkey
    content := match decryptMessage sk e.pubkey e.content with
      | .ok m => m
      | .error _ => []
    createdAt := e.createdAt }

/-- The JSON-mode rendering loop over the collected batch. -/
def renderJsonAll (sk : List Char) : List REvent → List JsonMsg
  | [] => []
  | e :: rest => renderJson sk e :: renderJsonAll sk rest

/-- Sample secret-key hex string with scalar value 2. -/
def sk2 : List Char := List.replicate 63 '0' ++ ['2']

/-- Sample secret-key hex string with scalar value 3. -/
def sk3 : List Char := List.replicate 63 '0' ++ ['3']

/-- The all-zero 64-character hex string: well-formed hex, but its
scalar is zero, so the signing primitive rejects it. -/
def zeros64 : List Char := List.replicate 64 '0'

/-- A well-formed 64-character hex public key used by sample events. -/
def pubHexA : List Char := List.replicate 64 'a'

/-- The conversation key of `pubHexA` and `sk2`. -/
def convKeyA : Nat := sharedSecret (hexToNat pubHexA) (hexToNat sk2)

/-- Sample relay event used in the duplicate-merge counterexample. -/
def evSample : REvent :=
  { id := "aaaa".data, pubkey := "bbbb".data, createdAt := 1, kind := 4,
    tags := [], content := .raw ("xx".data), sig := 0 }

/-- Sample relay event used in the requested-count counterexample. -/
def evSampleB : REvent :=
  { id := "cccc".data, pubkey := "dddd".data, createdAt := 2, kind := 4,
    tags := [], content := .raw ("yy".data), sig := 0 }

/-- Sample event whose content is not a valid ciphertext, so decryption
fails. -/
def evFailJ : REvent :=
  { id := "ee".data, pubkey := pubHexA, createdAt := 3, kind := 4,
    tags := [], content := .raw ("zzzz".data), sig := 0 }

/-- Sample event carrying a valid encryption of the empty plaintext for
`sk2`, so decryption succeeds and returns the empty string. -/
def evOkJ : REvent :=
  { id := "ee".data, pubkey := pubHexA, createdAt := 3, kind := 4,
    tags := [], content := .enc convKeyA [], sig := 0 }

/-- Sample event carrying a valid encryption of a two-character
plaintext for `sk2`. -/
def evOkW : REvent :=
  { id := "ff".data, pubkey := pubHexA, createdAt := 4, kind := 4,
    tags := [], content := .enc convKeyA ("hi".data), sig := 0 }

deriving instance DecidableEq for Except

theorem hexVal_hexDigit : ∀ n < 16, hexVal (hexDigit n) = n := by decide

theorem isHexChar_hexDigit : ∀ n < 16, isHexChar (hexDigit n) = true := by decide

theorem toHexBE_length (len : Nat) : ∀ x : Nat, (toHexBE len x).length = len := by
  induction len with
  | zero => intro x; rfl
  | succ l ih =>
    intro x
    simp [toHexBE, ih]

theorem hexToNat_append_digit (l : List Char) (c : Char) :
    hexToNat (l ++ [c]) = hexToNat l * 16 + hexVal c := by
  simp [hexToNat, List.foldl_append]

theorem hexToNat_toHexBE (len : Nat) :
    ∀ x : Nat, x < 16 ^ len → hexToNat (toHexBE len x) = x := by
  induction len with
  | zero =>
    intro x hx
    have : x = 0 := by omega
    simp [this, toHexBE, hexToNat]
  | succ l ih =>
    intro x hx
    have hdiv : x / 16 < 16 ^ l := by
      rw [Nat.div_lt_iff_lt_mul (by norm_num)]
      calc x < 16 ^ (l + 1) := hx
        _ = 16 ^ l * 16 := by ring
    have hmod : x % 16 < 16 := Nat.mod_lt _ (by norm_num)
    rw [toHexBE, hexToNat_append_digit, ih _ hdiv, hexVal_hexDigit _ hmod]
    omega

theorem isHex_append (a b : List Char) :
    isHex (a ++ b) = (isHex a && isHex b) := by
  simp [isHex]

theorem isHex_toHexBE (len : Nat) : ∀ x : Nat, isHex (toHexBE len x) = true := by
  induction len with
  | zero => intro x; rfl
  | succ l ih =>
    intro x
    have hmod : x % 16 < 16 := Nat.mod_lt _ (by norm_num)
    rw [toHexBE, isHex_append, ih]
    simp [isHex, isHexChar_hexDigit _ hmod]

theorem isSpace_eq_false_of_isHexChar (c : Char) (h : isHexChar c = true) :
    isSpace c = false := by
  simp [isHexChar] at h
  simp [isSpace]
  omega

theorem dropWhile_isSpace_of_isHex (s : List Char) (h : isHex s = true) :
    s.dropWhile isSpace = s := by
  cases s with
  | nil => rfl
  | cons c t =>
    simp [isHex] at h
    simp [List.dropWhile_cons, isSpace_eq_false_of_isHexChar c h.1]

theorem isHex_reverse (s : List Char) : isHex s.reverse = isHex s := by
  simp [isHex, List.all_eq_true]

theorem trimSpace_of_isHex (s : List Char) (h : isHex s = true) :
    trimSpace s = s := by
  unfold trimSpace
  rw [dropWhile_isSpace_of_isHex s h,
    dropWhile_isSpace_of_isHex s.reverse ((isHex_reverse s).trans h),
    List.reverse_reverse]

theorem sharedSecret_pubNat_comm (a b : Nat) :
    sharedSecret (pubNat a) b = sharedSecret (pubNat b) a := by
  unfold sharedSecret pubNat
  rw [← Nat.pow_mod, ← Nat.pow_mod, ← pow_mul, ← pow_mul, Nat.mul_comm]

theorem pMod_pos : 0 < pMod := by norm_num [pMod]

theorem pubNat_lt (x : Nat) : pubNat x < 16 ^ 64 :=
  lt_of_lt_of_le (Nat.mod_lt _ pMod_pos) (by norm_num [pMod])

theorem pubOfPriv_length (s : List Char) : (pubOfPriv s).length = 64 :=
  toHexBE_length 64 _

theorem isHex_pubOfPriv (s : List Char) : isHex (pubOfPriv s) = true :=
  isHex_toHexBE 64 _

theorem hexToNat_pubOfPriv (s : List Char) :
    hexToNat (pubOfPriv s) = pubNat (hexToNat s) :=
  hexToNat_toHexBE 64 _ (pubNat_lt _)

theorem gck_pubOfPriv (a sk : List Char) (hsk : validSec sk = true) :
    generateConversationKey (pubOfPriv a) sk =
      .ok (sharedSecret (pubNat (hexToNat a)) (hexToNat sk)) := by
  have h1 : (pubOfPriv a).length = 64 ∧ isHex (pubOfPriv a) = true ∧
      validSec sk = true := ⟨pubOfPriv_length a, isHex_pubOfPriv a, hsk⟩
  rw [generateConversationKey, if_pos h1, hexToNat_pubOfPriv]

theorem derive_of_valid (sk : List Char) (t : Int) (h : validSec sk = true) :
    derivePublicKeyFromPrivate sk t = .ok (pubOfPriv sk) := by
  unfold derivePublicKeyFromPrivate signEvent
  rw [if_pos h]

theorem derive_of_invalid (sk : List Char) (t : Int) (h : validSec sk = false) :
    derivePublicKeyFromPrivate sk t = .error ("sign error".data) := by
  unfold derivePublicKeyFromPrivate signEvent
  rw [if_neg (by simp [h])]

theorem ciphChars_enc_ne_nil (k : Nat) (m : List Char) :
    ¬ ciphChars (Ciphertext.enc k m) = [] := by
  intro h
  have h2 := congrArg List.length h
  simp [ciphChars, toHexBE_length] at h2

theorem decryptMessage_enc (sk a : List Char) (k : Nat) (m : List Char)
    (hsk : validSec sk = true) :
    decryptMessage sk (pubOfPriv a) (.enc k m) =
      if k = sharedSecret (pubNat (hexToNat a)) (hexToNat sk) then .ok m
      else .error ("invalid mac".data) := by
  unfold decryptMessage
  rw [if_neg (ciphChars_enc_ne_nil k m), gck_pubOfPriv a sk hsk]
  rfl

theorem except_bind_ok {e a b : Type} (x : a) (f : a → Except e b) :
    (Except.ok x : Except e a).bind f = f x := rfl

/-- C4: for every plaintext, including the empty string, and every valid
key pair, encrypting as `sendMessage` does with (A-private, B-public)
and then decrypting the resulting ciphertext as `decryptMessage` does
with (B-private, A-public) returns the original plaintext. -/
theorem c4_encrypt_decrypt_round_trip (m A B : List Char)
    (hA : validSec A = true) (hB : validSec B = true) :
    (sendEncrypt m A (pubOfPriv B)).bind
      (fun c => decryptMessage B (pubOfPriv A) c) = .ok m := by
  have h1 : sendEncrypt m A (pubOfPriv B) =
      .ok (nip44Encrypt m (sharedSecret (pubNat (hexToNat B)) (hexToNat A))) := by
    rw [sendEncrypt, gck_pubOfPriv B A hA]
  rw [h1, except_bind_ok]
  simp only [nip44Encrypt]
  rw [decryptMessage_enc B A _ m hB,
    if_pos (sharedSecret_pubNat_comm (hexToNat B) (hexToNat A))]

/-- Witness for C4 at concrete keys 2 and 3, with a two-character and
with the empty plaintext. -/
theorem c4_encrypt_decrypt_round_trip_witness :
    validSec sk2 = true ∧ validSec sk3 = true ∧
    (sendEncrypt ("hi".data) sk2 (pubOfPriv sk3)).bind
      (fun c => decryptMessage sk3 (pubOfPriv sk2) c) = .ok ("hi".data) ∧
    (sendEncrypt [] sk2 (pubOfPriv sk3)).bind
      (fun c => decryptMessage sk3 (pubOfPriv sk2) c) = .ok [] :=
  ⟨by decide, by decide,
    c4_encrypt_decrypt_round_trip ("hi".data) sk2 sk3 (by decide) (by decide),
    c4_encrypt_decrypt_round_trip [] sk2 sk3 (by decide) (by decide)⟩

theorem resolveKey_hex_case (s : List Char) (t1 t2 : Int)
    (h64 : s.length = 64) (hhex : isHex s = true) :
    resolveKey t1 t2 s = .ok (if validSec s = true then pubOfPriv s else s) := by
  have htrim : trimSpace s = s := trimSpace_of_isHex s hhex
  simp only [resolveKey, htrim, if_pos (And.intro h64 hhex)]
  cases hv : validSec s with
  | true => rw [derive_of_valid s t1 hv, derive_of_valid s t2 hv]; simp
  | false => rw [derive_of_invalid s t1 hv]; simp

/-- C5: on an input of exactly 64 hex characters, `resolveKey` first
attempts private-key derivation; if it succeeds the derived public key
is returned, and if it fails the input is returned unchanged — in
particular every 64-character hex string that is not a valid private
key is returned unchanged. -/
theorem c5_resolveKey_hex (s : List Char) (t1 t2 : Int)
    (h64 : s.length = 64) (hhex : isHex s = true) :
    resolveKey t1 t2 s = .ok (if validSec s = true then pubOfPriv s else s) :=
  resolveKey_hex_case s t1 t2 h64 hhex

/-- Witness for C5: the all-zero hex string is not a valid private key
and comes back unchanged; the hex string of the scalar 2 is valid and
comes back as the derived public key. -/
theorem c5_resolveKey_hex_witness :
    validSec zeros64 = false ∧
    resolveKey 0 1 zeros64 =
      .ok (if validSec zeros64 = true then pubOfPriv zeros64 else zeros64) ∧
    validSec sk2 = true ∧
    resolveKey 2 3 sk2 =
      .ok (if validSec sk2 = true then pubOfPriv sk2 else sk2) :=
  ⟨by decide, c5_resolveKey_hex zeros64 0 1 (by decide) (by decide),
    by decide, c5_resolveKey_hex sk2 2 3 (by decide) (by decide)⟩

/-- Unusable private keys make the signing primitive fail, whatever the
event. -/
theorem signEvent_invalid (e : REvent) (sk : List Char)
    (h : validSec sk = false) : (signEvent e sk).isOk = false := by
  simp [signEvent, h, Except.isOk, Except.toBool]

/-- C9: for a valid private key P, `resolveKey` returns exactly the
public key derivable from P, identically across repeated calls and
independently of the wall-clock timestamps placed in the dummy events
its two internal derivation calls sign. -/
theorem c9_resolveKey_deterministic (P : List Char) (t1 t2 u1 u2 : Int)
    (h : validSec P = true) :
    resolveKey t1 t2 P = .ok (pubOfPriv P) ∧
    resolveKey t1 t2 P = resolveKey u1 u2 P ∧
    derivePublicKeyFromPrivate P t1 = derivePublicKeyFromPrivate P t2 := by
  have hparts : (P.length = 64 ∧ isHex P = true) ∧ hexToNat P % nOrder ≠ 0 := by
    simpa [validSec] using h
  have h1 : resolveKey t1 t2 P = .ok (pubOfPriv P) := by
    rw [resolveKey_hex_case P t1 t2 hparts.1.1 hparts.1.2, if_pos h]
  have h2 : resolveKey u1 u2 P = .ok (pubOfPriv P) := by
    rw [resolveKey_hex_case P u1 u2 hparts.1.1 hparts.1.2, if_pos h]
  exact ⟨h1, h1.trans h2.symm,
    (derive_of_valid P t1 h).trans (derive_of_valid P t2 h).symm⟩

/-- Witness for C9 at the scalar-2 key and four distinct clock
readings. -/
theorem c9_resolveKey_deterministic_witness :
    validSec sk2 = true ∧
    (resolveKey 0 1 sk2 = .ok (pubOfPriv sk2) ∧
      resolveKey 0 1 sk2 = resolveKey 2 3 sk2 ∧
      derivePublicKeyFromPrivate sk2 0 = derivePublicKeyFromPrivate sk2 1) :=
  ⟨by decide, c9_resolveKey_deterministic sk2 0 1 2 3 (by decide)⟩

/-- C10: `resolvePrivateKey` returns any (trimmed) 64-character hex
input unchanged with no usability validation; it succeeds exactly on
64-character hex or decodable bech32-secret input; a well-formed but
cryptographically unusable secret is only rejected later, by the
signing primitive. -/
theorem c10_resolvePrivateKey_classification (s : List Char) (e : REvent) :
    ((trimSpace s).length = 64 ∧ isHex (trimSpace s) = true →
      resolvePrivateKey s = .ok (trimSpace s)) ∧
    ((resolvePrivateKey s).isOk = true ↔
      ((trimSpace s).length = 64 ∧ isHex (trimSpace s) = true) ∨
      (hasPre ("nsec".data) (trimSpace s) = true ∧
        (nsecPart (trimSpace s)).isSome = true)) ∧
    (validSec (trimSpace s) = false → (signEvent e (trimSpace s)).isOk = false) := by
  refine ⟨?_, ?_, fun hv => signEvent_invalid e _ hv⟩
  · intro h1
    simp only [resolvePrivateKey, if_pos h1]
  · by_cases h1 : (trimSpace s).length = 64 ∧ isHex (trimSpace s) = true
    · simp only [resolvePrivateKey, if_pos h1]
      simp [Except.isOk, Except.toBool, h1]
    · cases hp : hasPre ("nsec".data) (trimSpace s) with
      | false =>
        simp only [resolvePrivateKey, if_neg h1, hp]
        simp [Except.isOk, Except.toBool, h1, hp]
      | true =>
        cases hn : nsecPart (trimSpace s) with
        | none =>
          simp only [resolvePrivateKey, if_neg h1, hp, hn]
          simp [Except.isOk, Except.toBool, h1, hn]
        | some v =>
          simp only [resolvePrivateKey, if_neg h1, hp, hn]
          simp [Except.isOk, Except.toBool, h1, hn]

/-- Witness for C10: the all-zero key is returned unchanged by
`resolvePrivateKey` yet rejected by the signing primitive. -/
theorem c10_resolvePrivateKey_classification_witness :
    resolvePrivateKey zeros64 = .ok (trimSpace zeros64) ∧
    (signEvent evSample (trimSpace zeros64)).isOk = false :=
  ⟨(c10_resolvePrivateKey_classification zeros64 evSample).1 (by decide),
    (c10_resolvePrivateKey_classification zeros64 evSample).2.2 (by decide)⟩

theorem countPublished_append (a b : List RelayAttempt) :
    countPublished (a ++ b) = countPublished a + countPublished b := by
  induction a with
  | nil => simp [countPublished]
  | cons x t ih =>
    cases x <;> simp [countPublished, ih]
    omega

theorem countPublished_eq_zero_iff (l : List RelayAttempt) :
    countPublished l = 0 ↔ ¬ RelayAttempt.accepted ∈ l := by
  induction l with
  | nil => simp [countPublished]
  | cons x t ih => cases x <;> simp [countPublished, ih]

/-- C3: the publish fan-out of `sendMessage` succeeds overall iff at
least one relay accepted the event; with zero acceptances it fails with
the publish error; and failures on earlier relays leave the outcome of
the remaining attempts untouched (every relay is attempted). -/
theorem c3_publish_success_iff (eid npubR : List Char)
    (atts : List RelayAttempt) :
    ((sendOutcome eid npubR atts).isOk = true ↔
      RelayAttempt.accepted ∈ atts) ∧
    (¬ RelayAttempt.accepted ∈ atts →
      sendOutcome eid npubR atts =
        .error ("failed to publish to any relay".data)) ∧
    (∀ pre, (∀ a ∈ pre, a ≠ RelayAttempt.accepted) →
      sendOutcome eid npubR (pre ++ atts) = sendOutcome eid npubR atts) := by
  refine ⟨?_, ?_, ?_⟩
  · by_cases h : countPublished atts = 0
    · simp [sendOutcome, h, Except.isOk, Except.toBool,
        (countPublished_eq_zero_iff atts).mp h]
    · simp [sendOutcome, h, Except.isOk, Except.toBool]
      by_contra hmem
      exact h ((countPublished_eq_zero_iff atts).mpr hmem)
  · intro hmem
    simp [sendOutcome, (countPublished_eq_zero_iff atts).mpr hmem]
  · intro pre hpre
    have hzero : countPublished pre = 0 :=
      (countPublished_eq_zero_iff pre).mpr fun hmem => hpre _ hmem rfl
    simp [sendOutcome, countPublished_append, hzero]

/-- Witness for C3: one acceptance among failures gives overall
success, and a prefixed failing relay changes nothing. -/
theorem c3_publish_success_iff_witness :
    (sendOutcome [] []
      [.connectFail ("dial".data), .publishFail ("timeout".data),
        .accepted]).isOk = true ∧
    sendOutcome [] [] ([.publishFail ("x".data)] ++
      [.connectFail ("dial".data), .publishFail ("timeout".data),
        .accepted]) =
      sendOutcome [] []
        [.connectFail ("dial".data), .publishFail ("timeout".data),
          .accepted] :=
  ⟨(c3_publish_success_iff [] [] _).1.mpr (by decide),
    (c3_publish_success_iff [] [] _).2.2 [.publishFail ("x".data)] (by decide)⟩

/-- C2 counterexample: two publish runs whose per-relay outcomes and
failure reasons differ (which relay succeeded, and why the others
failed) produce identical caller-visible results, so the result cannot
report per-relay outcomes or failure reasons; it reports only the
aggregate acceptance count. -/
theorem c2_per_relay_report_counterexample :
    sendOutcome [] [] [.accepted, .publishFail ("timeout".data),
        .publishFail ("connection refused".data)] =
      sendOutcome [] [] [.publishFail ("dial error".data), .accepted,
        .connectFail ("eof".data)] ∧
    sendOutcome [] [] [.accepted, .publishFail ("timeout".data),
        .publishFail ("connection refused".data)] = .ok ⟨[], [], 1⟩ :=
  ⟨rfl, rfl⟩

/-- C2 amended: the caller-visible result of the publish fan-out is a
function of the aggregate acceptance count alone (message id and
recipient aside); per-relay outcomes and failure reasons are not
reported.  When at least one relay accepted, it is the success payload
carrying that count. -/
theorem c2_per_relay_report_amended (eid npubR : List Char)
    (a1 a2 : List RelayAttempt) (h : countPublished a1 = countPublished a2) :
    sendOutcome eid npubR a1 = sendOutcome eid npubR a2 ∧
    (countPublished a1 ≠ 0 →
      sendOutcome eid npubR a1 = .ok ⟨eid, npubR, countPublished a1⟩) := by
  constructor
  · simp [sendOutcome, h]
  · intro hne
    simp [sendOutcome, hne]

/-- Witness for the amended C2: three relays, exactly one success, the
result is success with `relays = 1` however the outcomes are laid
out. -/
theorem c2_per_relay_report_amended_witness :
    sendOutcome [] [] [.accepted, .publishFail ("timeout".data),
        .publishFail ("refused".data)] =
      sendOutcome [] [] [.publishFail ("a".data), .accepted,
        .connectFail ("b".data)] ∧
    (countPublished [.accepted, .publishFail ("timeout".data),
        .publishFail ("refused".data)] ≠ 0 →
      sendOutcome [] [] [.accepted, .publishFail ("timeout".data),
          .publishFail ("refused".data)] =
        .ok ⟨[], [],
          countPublished [.accepted, .publishFail ("timeout".data),
            .publishFail ("refused".data)]⟩) :=
  c2_per_relay_report_amended [] [] _ _ (by decide)

theorem collectStream_eq_take (count : Int) :
    ∀ (s acc : List REvent), (acc.length : Int) < count →
      collectStream count acc s = (acc ++ s).take count.toNat := by
  intro s
  induction s with
  | nil =>
    intro acc hacc
    have hle : acc.length ≤ count.toNat := by omega
    simp [collectStream, List.take_of_length_le hle]
  | cons e rest ih =>
    intro acc hacc
    by_cases hge : ((acc ++ [e]).length : Int) ≥ count
    · rw [collectStream, if_pos hge]
      have hlen : (acc ++ [e]).length = acc.length + 1 := by simp
      have hcnt : count.toNat = acc.length + 1 := by
        rw [hlen] at hge; omega
      rw [hcnt, List.take_append_eq_append_take]
      have h1 : acc.take (acc.length + 1) = acc :=
        List.take_of_length_le (by omega)
      have h2 : acc.length + 1 - acc.length = 1 := by omega
      simp [h1, h2, List.take_cons, List.take_zero]
    · rw [collectStream, if_neg hge]
      have hlt : (((acc ++ [e]).length : Int)) < count := by omega
      rw [ih (acc ++ [e]) hlt]
      simp

theorem streamsOf_cons_stream (evts : List REvent) (rs : List RelayRead) :
    streamsOf (.stream evts :: rs) = evts :: streamsOf rs := by
  simp [streamsOf]

theorem collectEvents_eq_take (count : Int) :
    ∀ (rs : List RelayRead) (acc : List REvent), (acc.length : Int) < count →
      collectEvents count rs acc = (acc ++ (streamsOf rs).flatten).take count.toNat := by
  intro rs
  induction rs with
  | nil =>
    intro acc hacc
    have hle : acc.length ≤ count.toNat := by omega
    simp [collectEvents, streamsOf, List.take_of_length_le hle]
  | cons r rest ih =>
    intro acc hacc
    cases r with
    | connectFail =>
      rw [show collectEvents count (.connectFail :: rest) acc =
        collectEvents count rest acc from rfl, ih acc hacc]
      simp [streamsOf]
    | queryFail =>
      rw [show collectEvents count (.queryFail :: rest) acc =
        collectEvents count rest acc from rfl, ih acc hacc]
      simp [streamsOf]
    | stream evts =>
      have hacc2 := collectStream_eq_take count evts acc hacc
      have hstep : collectEvents count (.stream evts :: rest) acc =
          if ((collectStream count acc evts).length : Int) ≥ count then
            collectStream count acc evts
          else collectEvents count rest (collectStream count acc evts) := rfl
      rw [hstep, hacc2, streamsOf_cons_stream, List.flatten_cons,
        show acc ++ (evts ++ (streamsOf rest).flatten) =
          (acc ++ evts) ++ (streamsOf rest).flatten by simp]
      by_cases hlen2 : (acc ++ evts).length < count.toNat
      · have hA : (acc ++ evts).take count.toNat = acc ++ evts :=
          List.take_of_length_le (by omega)
        rw [hA, if_neg (by omega), ih (acc ++ evts) (by omega)]
      · have hlong : count.toNat ≤ (acc ++ evts).length := Nat.le_of_not_lt hlen2
        have hAlen : ((acc ++ evts).take count.toNat).length = count.toNat := by
          rw [List.length_take]; omega
        rw [if_pos (by rw [hAlen]; omega)]
        have hsplit : ((acc ++ evts) ++ (streamsOf rest).flatten).take count.toNat =
            (acc ++ evts).take count.toNat ++
              (streamsOf rest).flatten.take (count.toNat - (acc ++ evts).length) :=
          List.take_append_eq_append_take
        rw [hsplit, show count.toNat - (acc ++ evts).length = 0 by omega]
        simp

/-- C1 counterexample: two relays both return the event `evSample`; the
merged result keeps both copies, so the shared identifier appears twice,
not exactly once. -/
theorem c1_duplicate_counterexample :
    collectEvents 10 [.stream [evSample], .stream [evSample]] [] =
      [evSample, evSample] ∧
    ¬ (((collectEvents 10 [.stream [evSample], .stream [evSample]] []).filter
        (fun e => e.id == evSample.id)).length = 1) := by decide

/-- C1 amended: the fan-in of `readMessages` performs no deduplication —
the merged result is exactly the first `count` events of the
concatenated relay streams in arrival order, so every received duplicate
within that cap is kept, occurring as often as it was received. -/
theorem c1_merge_keeps_duplicates (count : Int) (rs : List RelayRead)
    (h : 1 ≤ count) :
    collectEvents count rs [] = ((streamsOf rs).flatten).take count.toNat ∧
    ∀ i : List Char,
      ((collectEvents count rs []).filter (fun e => e.id == i)).length =
        ((((streamsOf rs).flatten).take count.toNat).filter
          (fun e => e.id == i)).length := by
  have heq := collectEvents_eq_take count rs [] (by simp; omega)
  rw [List.nil_append] at heq
  exact ⟨heq, fun i => by rw [heq]⟩

/-- Witness for the amended C1 at three relays containing a duplicated
event within the count cap. -/
theorem c1_merge_keeps_duplicates_witness :
    collectEvents 3 [.stream [evSample], .stream [evSample, evSampleB]] [] =
      ((streamsOf [.stream [evSample],
        .stream [evSample, evSampleB]]).flatten).take (Int.toNat 3) ∧
    ((collectEvents 3 [.stream [evSample], .stream [evSample, evSampleB]] []).filter
        (fun e => e.id == evSample.id)).length =
      ((((streamsOf [.stream [evSample],
          .stream [evSample, evSampleB]]).flatten).take (Int.toNat 3)).filter
        (fun e => e.id == evSample.id)).length :=
  ⟨(c1_merge_keeps_duplicates 3 _ (by decide)).1,
    (c1_merge_keeps_duplicates 3 _ (by decide)).2 evSample.id⟩

/-- C6 counterexample: with a requested count of 0 (accepted by the
`-n` flag) and one relay offering one event, the result contains one
event — more than the requested count, because the loop appends before
it compares. -/
theorem c6_zero_count_counterexample :
    collectEvents 0 [.stream [evSampleB]] [] = [evSampleB] ∧
    ¬ ((collectEvents 0 [.stream [evSampleB]] []).length ≤ 0) := by decide

/-- C6 amended: for every requested count of at least 1, the fan-in
result has at most `count` events; it has exactly `count` whenever the
relays collectively stream at least `count` events, in which case
relays appended after the point the count is reached contribute nothing;
and the result is the first-accumulated prefix of the concatenated
streams, preserving order. -/
theorem c6_requested_count (count : Int) (rs : List RelayRead)
    (h : 1 ≤ count) :
    (collectEvents count rs []).length ≤ count.toNat ∧
    (count.toNat ≤ ((streamsOf rs).flatten).length →
      (collectEvents count rs []).length = count.toNat) ∧
    (count.toNat ≤ ((streamsOf rs).flatten).length →
      ∀ extra, collectEvents count (rs ++ extra) [] = collectEvents count rs []) ∧
    collectEvents count rs [] = ((streamsOf rs).flatten).take count.toNat := by
  have heq := collectEvents_eq_take count rs [] (by simp; omega)
  rw [List.nil_append] at heq
  refine ⟨?_, ?_, ?_, heq⟩
  · rw [heq]
    exact List.length_take_le _ _
  · intro hlen
    rw [heq, List.length_take]
    omega
  · intro hlen extra
    have heq2 := collectEvents_eq_take count (rs ++ extra) [] (by simp; omega)
    rw [List.nil_append] at heq2
    rw [heq2, heq]
    have hsOf : streamsOf (rs ++ extra) = streamsOf rs ++ streamsOf extra := by
      simp [streamsOf]
    rw [hsOf, List.flatten_append]
    have hsplit : (((streamsOf rs).flatten) ++ ((streamsOf extra).flatten)).take
          count.toNat =
        ((streamsOf rs).flatten).take count.toNat ++
          ((streamsOf extra).flatten).take
            (count.toNat - ((streamsOf rs).flatten).length) :=
      List.take_append_eq_append_take
    rw [hsplit, show count.toNat - ((streamsOf rs).flatten).length = 0 by omega]
    simp

/-- Witness for the amended C6: count 1, a failing relay, a relay
streaming two events, and an extra relay that is never needed. -/
theorem c6_requested_count_witness :
    (collectEvents 1 [.connectFail, .stream [evSample, evSampleB]] []).length ≤
      (Int.toNat 1) ∧
    (collectEvents 1 [.connectFail, .stream [evSample, evSampleB]] []).length =
      (Int.toNat 1) ∧
    collectEvents 1 ([.connectFail, .stream [evSample, evSampleB]] ++
        [.stream [evSampleB]]) [] =
      collectEvents 1 [.connectFail, .stream [evSample, evSampleB]] [] ∧
    collectEvents 1 [.connectFail, .stream [evSample, evSampleB]] [] =
      ((streamsOf [.connectFail,
        .stream [evSample, evSampleB]]).flatten).take (Int.toNat 1) :=
  ⟨(c6_requested_count 1 _ (by decide)).1,
    (c6_requested_count 1 _ (by decide)).2.1 (by decide),
    (c6_requested_count 1 _ (by decide)).2.2.1 (by decide) [.stream [evSampleB]],
    (c6_requested_count 1 _ (by decide)).2.2.2⟩

/-- C7 counterexample: in JSON mode a decrypt-failed event is rendered
identically to a successfully decrypted empty message — no failure
marker and no ciphertext preview — while in text mode the "bounded
preview" of a 4-character ciphertext is the entire ciphertext. -/
theorem c7_json_no_marker_counterexample :
    (decryptMessage sk2 evFailJ.pubkey evFailJ.content).isOk = false ∧
    decryptMessage sk2 evOkJ.pubkey evOkJ.content = .ok [] ∧
    renderJson sk2 evFailJ = renderJson sk2 evOkJ ∧
    renderText sk2 evFailJ =
      .failed (List.replicate 16 'a' ++ "...".data) ("ee...".data)
        ("invalid payload".data) ("zzzz...".data) := by decide

/-- C7 amended: a decrypt-failed event is still included in both output
modes; in text mode with an explicit failure marker and a preview of at
most 50 characters of the raw ciphertext (the whole ciphertext whenever
it is at most 50 characters long); in JSON mode with an empty content
field and neither failure marker nor ciphertext preview. -/
theorem c7_failure_still_rendered (sk : List Char) (e : REvent)
    (err : List Char)
    (herr : decryptMessage sk e.pubkey e.content = .error err) :
    renderText sk e =
      .failed (e.pubkey.take 16 ++ "...".data) (e.id.take 16 ++ "...".data)
        err
        ((ciphChars e.content).take (min 50 (ciphChars e.content).length)
          ++ "...".data) ∧
    ((ciphChars e.content).take
      (min 50 (ciphChars e.content).length)).length ≤ 50 ∧
    renderJson sk e =
      { id := e.id, sender := e.pubkey, content := [],
        createdAt := e.createdAt } := by
  refine ⟨?_, ?_, ?_⟩
  · simp only [renderText, herr]
  · exact le_trans (List.length_take_le _ _) (Nat.min_le_left _ _)
  · simp [renderJson, herr]

/-- Witness for the amended C7 at the concrete undecryptable event. -/
theorem c7_failure_still_rendered_witness :
    renderText sk2 evFailJ =
      .failed (evFailJ.pubkey.take 16 ++ "...".data)
        (evFailJ.id.take 16 ++ "...".data) ("invalid payload".data)
        ((ciphChars evFailJ.content).take
            (min 50 (ciphChars evFailJ.content).length) ++ "...".data) ∧
    ((ciphChars evFailJ.content).take
      (min 50 (ciphChars evFailJ.content).length)).length ≤ 50 ∧
    renderJson sk2 evFailJ =
      { id := evFailJ.id, sender := evFailJ.pubkey, content := [],
        createdAt := evFailJ.createdAt } :=
  c7_failure_still_rendered sk2 evFailJ ("invalid payload".data) (by decide)

theorem renderTextAll_append (sk : List Char) (a b : List REvent) :
    renderTextAll sk (a ++ b) = renderTextAll sk a ++ renderTextAll sk b := by
  induction a with
  | nil => rfl
  | cons x t ih => simp [renderTextAll, ih]

theorem renderTextAll_length (sk : List Char) (l : List REvent) :
    (renderTextAll sk l).length = l.length := by
  induction l with
  | nil => rfl
  | cons x t ih => simp [renderTextAll, ih]

theorem renderJsonAll_append (sk : List Char) (a b : List REvent) :
    renderJsonAll sk (a ++ b) = renderJsonAll sk a ++ renderJsonAll sk b := by
  induction a with
  | nil => rfl
  | cons x t ih => simp [renderJsonAll, ih]

/-- C8: a batch in which exactly one event fails to decrypt is still
rendered in full, in both modes: the render of the batch is the
per-event renders in order (nothing is dropped and the loop does not
abort), and every other event appears decrypted. -/
theorem c8_single_failure_scoped (sk : List Char) (pre post : List REvent)
    (e : REvent)
    (he : (decryptMessage sk e.pubkey e.content).isOk = false)
    (hok : ∀ f ∈ pre ++ post,
      (decryptMessage sk f.pubkey f.content).isOk = true) :
    renderTextAll sk (pre ++ e :: post) =
      renderTextAll sk pre ++ renderText sk e :: renderTextAll sk post ∧
    (renderTextAll sk (pre ++ e :: post)).length =
      pre.length + 1 + post.length ∧
    (∀ f ∈ pre ++ post, ∃ m, decryptMessage sk f.pubkey f.content = .ok m ∧
      renderText sk f =
        .shown ((encodePublicKey f.pubkey).take 20 ++ "...".data)
          (f.id.take 16 ++ "...".data) f.createdAt m) ∧
    renderJsonAll sk (pre ++ e :: post) =
      renderJsonAll sk pre ++ renderJson sk e :: renderJsonAll sk post := by
  refine ⟨?_, ?_, ?_, ?_⟩
  · rw [renderTextAll_append]
    rfl
  · rw [renderTextAll_length]
    simp
    omega
  · intro f hf
    have h := hok f hf
    cases hd : decryptMessage sk f.pubkey f.content with
    | error err =>
      rw [hd] at h
      simp [Except.isOk, Except.toBool] at h
    | ok m =>
      refine ⟨m, rfl, ?_⟩
      simp only [renderText, hd]
  · rw [renderJsonAll_append]
    rfl

/-- Witness for C8: a three-event batch whose middle event cannot be
decrypted, flanked by two decryptable events. -/
theorem c8_single_failure_scoped_witness :
    renderTextAll sk2 ([evOkW] ++ evFailJ :: [evOkJ]) =
      renderTextAll sk2 [evOkW] ++
        renderText sk2 evFailJ :: renderTextAll sk2 [evOkJ] ∧
    (renderTextAll sk2 ([evOkW] ++ evFailJ :: [evOkJ])).length =
      [evOkW].length + 1 + [evOkJ].length ∧
    (∀ f ∈ [evOkW] ++ [evOkJ], ∃ m,
      decryptMessage sk2 f.pubkey f.content = .ok m ∧
      renderText sk2 f =
        .shown ((encodePublicKey f.pubkey).take 20 ++ "...".data)
          (f.id.take 16 ++ "...".data) f.createdAt m) ∧
    renderJsonAll sk2 ([evOkW] ++ evFailJ :: [evOkJ]) =
      renderJsonAll sk2 [evOkW] ++
        renderJson sk2 evFailJ :: renderJsonAll sk2 [evOkJ] :=
  c8_single_failure_scoped sk2 [evOkW] [evOkJ] evFailJ (by decide) (by decide)
